import Mathlib

/-
Verification of the dynamic-semantics engine of the rpy repository
(src/interpreter/interpreter.rs) against its natural-language specification.

The interpreter source (eval, execute, call, lookup, is_constant and the
binary-operator helpers) is translated below into a fuel-indexed shallow
embedding: the Rust functions eval/execute/call are mutually recursive and a
While statement or a recursive call may diverge, so every embedded function
takes a fuel argument and every nested invocation consumes one unit of fuel;
an exhausted fuel yields the artificial outcome `RResult.oof`, which no
theorem ever treats as a success.  A Rust panic (`unreachable!`, `unwrap` on
`None`) is modelled by the outcome `RResult.crash`, distinct from a clean
`Err` (`RResult.err`), because a panic aborts the process instead of
returning a `Result`.

The module `ir::ast` (Expression, Statement, Function, Type, Environment) is
not part of the available sources: only its uses in interpreter.rs and the
drivers, and its contract in the specification, are.  The data definitions
below therefore carry `Modelled from the spec:` comments and follow the
specification's words (section 3, section 4.1) together with the constructor
names visible in interpreter.rs.
-/

namespace Rpy

abbrev Name := String

/-- Modelled from the spec: the advisory declared types (`Type` in
`ir::ast`, a name Lean reserves); the variants visible in the sources are
`TInteger` and `TString`, the spec's four constant kinds give the rest. -/
inductive Ty where
| TInteger
| TReal
| TString
| TBool

/-- Modelled from the spec: the `Expression` tree of `ir::ast` (section 3),
with the constructor names used by interpreter.rs and the drivers
(`CInt`/`CReal`/`CString`/`CTrue`/`CFalse`, the arithmetic, boolean and
relational operators, `Var`, `FuncCall`, `ReadFile`, and the three
`Read...` input forms used by main_read.rs, which have no evaluation
rule).  `CInt` carries an i32 value, represented as an `Int`; `CReal`
carries an f64 value, represented exactly as a rational number. -/
inductive Expression where
| CTrue
| CFalse
| CInt (i : Int)
| CReal (r : Rat)
| CString (s : String)
| Add (lhs rhs : Expression)
| Sub (lhs rhs : Expression)
| Mul (lhs rhs : Expression)
| Div (lhs rhs : Expression)
| And (lhs rhs : Expression)
| Or (lhs rhs : Expression)
| Not (lhs : Expression)
| EQ (lhs rhs : Expression)
| GT (lhs rhs : Expression)
| LT (lhs rhs : Expression)
| GTE (lhs rhs : Expression)
| LTE (lhs rhs : Expression)
| Var (name : Name)
| FuncCall (name : Name) (args : List Expression)
| ReadFile (path : Expression)
| ReadString
| ReadInt
| ReadFloat

mutual

/-- Modelled from the spec: the `Statement` tree of `ir::ast` (section 3),
with the constructor names and payloads used by interpreter.rs. -/
inductive Statement where
| Assignment (name : Name) (exp : Expression) (ty : Option Ty)
| IfThenElse (cond : Expression) (thenStmt : Statement) (elseStmt : Option Statement)
| While (cond : Expression) (body : Statement)
| Sequence (s1 s2 : Statement)
| FuncDef (func : Function)
| Return (exp : Expression)
| WriteToFile (path content : Expression)
| Print (exp : Expression)

/-- Modelled from the spec: a `Function` of `ir::ast` (section 3): name,
advisory return type, optional ordered parameter list of (name, type)
pairs, optional body (a body-less function is a declaration stub). -/
inductive Function where
| mk (name : Name) (kind : Option Ty) (params : Option (List (Name × Ty))) (body : Option Statement)

end

def Function.name : Function → Name
| .mk n _ _ _ => n

def Function.kind : Function → Option Ty
| .mk _ k _ _ => k

def Function.params : Function → Option (List (Name × Ty))
| .mk _ _ p _ => p

def Function.body : Function → Option Statement
| .mk _ _ _ b => b

/-- The runtime value type of interpreter.rs: a (reduced) expression or a
function value. -/
inductive EnvValue where
| Exp (e : Expression)
| Func (f : Function)

/-- Modelled from the spec: one scope frame (section 3): a name-to-value
mapping.  The Rust `HashMap` insert-overwrites; the association list below
conses a new binding in front, which every lookup observes identically.
The parent link is positional: the next frame of the chain (see
`Environment`). -/
structure Frame where
  vars : List (Name × EnvValue)

/-- Modelled from the spec: the `Environment` of `ir::ast` (sections 3 and
4.1): a forest of frames with parent handles and a current-frame handle.
Every operation of the contract (declare, push_frame, pop_frame, resolve,
find_anywhere) reads or extends only the parent chain of the current frame,
so the environment is represented by that chain: the head of `frames` is
the current frame, the last entry is the root frame (whose parent handle is
absent), and each frame's parent is the next list entry.  The list is
nonempty by construction (`Environment.new` creates the root frame). -/
structure Environment where
  frames : List Frame

def Environment.new : Environment := ⟨[⟨[]⟩]⟩

/-- Modelled from the spec: `declare(name, value)` / `insert_variable`
inserts or overwrites the binding in the current frame only. -/
def Environment.insert_variable (env : Environment) (name : Name) (value : EnvValue) : Environment :=
  match env.frames with
  | [] => ⟨[⟨[(name, value)]⟩]⟩
  | f :: rest => ⟨⟨(name, value) :: f.vars⟩ :: rest⟩

/-- Modelled from the spec: `push_frame(function)` / `insert_frame` creates
a new empty frame whose parent is the current frame and makes it current.
The function argument only motivates the push; it adds no binding. -/
def Environment.insert_frame (env : Environment) (_func : Function) : Environment :=
  ⟨⟨[]⟩ :: env.frames⟩

/-- Modelled from the spec: `pop_frame()` / `remove_frame` discards the
current frame and restores its parent as current. -/
def Environment.remove_frame (env : Environment) : Environment :=
  ⟨env.frames.tail⟩

/-- Lookup in one frame's mapping (`frame.vars.get(&name)`). -/
def varsLookup : List (Name × EnvValue) → Name → Option EnvValue
| [], _ => none
| (k, v) :: rest, name => if k = name then some v else varsLookup rest name

/-- The outcome of an embedded interpreter function.  `ok`/`err` are the
two sides of the Rust `Result`; `crash` models a panic
(`unreachable!`/`unwrap` on `None`), which aborts instead of returning;
`oof` is the fuel-exhaustion artifact of the embedding. -/
inductive RResult (α : Type) where
| ok (a : α)
| err (msg : String)
| crash (site : String)
| oof

def RResult.bind {α β : Type} : RResult α → (α → RResult β) → RResult β
| .ok a, f => f a
| .err m, _ => .err m
| .crash s, _ => .crash s
| .oof, _ => .oof

/-- The loop of the Rust `lookup` (interpreter.rs lines 187-198): walk the
chain from the current frame; a missing name in a frame moves to
`frame.parent_key.clone().unwrap()` — at the root frame the parent key is
`None`, so the `unwrap` panics. -/
def lookupFrames : List Frame → Name → RResult EnvValue
| [], _ => .crash ("lookup: empty frame chain")
| f :: rest, name =>
  match varsLookup f.vars name with
  | some v => .ok v
  | none =>
    match rest with
    | [] => .crash ("lookup: parent_key unwrap on None at the root frame")
    | _ :: _ => lookupFrames rest name

/-- The Rust `lookup` function. -/
def lookup (name : Name) (env : Environment) : RResult EnvValue :=
  lookupFrames env.frames name

/-- Walk of the chain for `search_frame`. -/
def searchFrames : List Frame → Name → Option EnvValue
| [], _ => none
| f :: rest, name =>
  match varsLookup f.vars name with
  | some v => some v
  | none => searchFrames rest name

/-- Modelled from the spec: `find_anywhere` / `search_frame` (section 4.1):
a non-failing lookup used to decide recursive self-binding and to inspect
final values; per section 9 it is not restricted to the current frame, so
it walks the whole chain and returns an option. -/
def Environment.search_frame (env : Environment) (name : Name) : Option EnvValue :=
  searchFrames env.frames name

/-- The Rust `is_constant` (interpreter.rs lines 176-185). -/
def is_constant : Expression → Bool
| .CTrue => true
| .CFalse => true
| .CInt _ => true
| .CReal _ => true
| .CString _ => true
| _ => false

/-- The i32 extremes of Rust. -/
def maxI32 : Int := 2147483647

def minI32 : Int := -2147483648

/-- The saturating cast `as i32` that Rust applies to a finite f64: the
fractional part is dropped (truncation toward zero) and an out-of-range
value is clamped to the nearest i32 bound. -/
def satI32 (x : Int) : Int :=
  if x > maxI32 then maxI32 else if x < minI32 then minI32 else x

/-- The four arithmetic operator closures passed to
`eval_binary_arith_op` in interpreter.rs. -/
inductive ArithOp where
| add
| sub
| mul
| div

/-- The integer-integer path of `eval_binary_arith_op`:
`op(v1 as f64, v2 as f64) as i32`, embedded exactly over `Int`.
Justification of exactness for i32 operands a, b:
an i32 converts to f64 exactly; for `add`/`sub` the sum or difference has
magnitude below 2^33 < 2^53, so the f64 operation is exact and the
saturating cast returns `satI32 (a + b)` resp. `satI32 (a - b)`; for `mul`
a product of magnitude below 2^53 is exact, and a product of magnitude at
least 2^53 rounds to a value of magnitude at least 2^53, far beyond the
i32 range, so the cast saturates exactly when the exact product is out of
range and `satI32 (a * b)` is the cast's value; for `div` with b ≠ 0 the
quotient a/b is within 1/|b| ≥ 2^-31 of the nearest other integer while
the f64 rounding error is below 2^-21 · 2^-1 relative only for magnitudes
near 2^31 and in all cases below the distance to the next integer (half an
ulp of a value of magnitude at most 2^31 is at most 2^-22), so rounding
never crosses an integer boundary and truncation of the rounded quotient
equals truncation of the exact quotient, `satI32 (a.tdiv b)`; for b = 0
the f64 quotient is an infinity (cast saturates to the matching bound) or,
for 0/0, NaN (cast gives 0). -/
def ArithOp.onInts : ArithOp → Int → Int → Int
| .add, a, b => satI32 (a + b)
| .sub, a, b => satI32 (a - b)
| .mul, a, b => satI32 (a * b)
| .div, a, b =>
  if b = 0 then (if a > 0 then maxI32 else if a < 0 then minI32 else 0)
  else satI32 (a.tdiv b)

/-- The real-valued path of `eval_binary_arith_op`: the f64 operation on
the operand values (an integer operand converted exactly).  The f64
rounding of the result is not modelled — the payload is the exact rational
— because every claim about a real-valued result concerns only its kind
(the result is a `CReal`), never its value.  Rust's x/0.0 is an infinity
or NaN, still stored as a `CReal`; the rational division returns 0 there,
of the same kind. -/
def ArithOp.onRats : ArithOp → Rat → Rat → Rat
| .add, a, b => a + b
| .sub, a, b => a - b
| .mul, a, b => a * b
| .div, a, b => a / b

/-- The value dispatch of `eval_binary_arith_op` (interpreter.rs lines
201-228).  The evaluation of the two operands, the first two lines of the
Rust helper, is performed at the call sites inside `evalF` so that the
recursion stays structural on fuel; the match on the evaluated pair is
verbatim. -/
def eval_binary_arith_op (op : ArithOp) (v1 v2 : EnvValue) (errorMsg : String) : RResult EnvValue :=
  match v1, v2 with
  | .Exp (.CInt a), .Exp (.CInt b) => .ok (.Exp (.CInt (op.onInts a b)))
  | .Exp (.CInt a), .Exp (.CReal b) => .ok (.Exp (.CReal (op.onRats a b)))
  | .Exp (.CReal a), .Exp (.CInt b) => .ok (.Exp (.CReal (op.onRats a b)))
  | .Exp (.CReal a), .Exp (.CReal b) => .ok (.Exp (.CReal (op.onRats a b)))
  | _, _ => .err errorMsg

/-- The closure shape of the Rust boolean helpers: a boolean result
rendered as `CTrue`/`CFalse`. -/
def boolToExp (b : Bool) : Expression :=
  if b then .CTrue else .CFalse

/-- The value dispatch of `eval_binary_boolean_op` (interpreter.rs lines
287-314), operand evaluation hoisted to the call sites as for the
arithmetic helper; the four success arms are verbatim. -/
def eval_binary_boolean_op (op : Bool → Bool → Bool) (v1 v2 : EnvValue) (errorMsg : String) : RResult EnvValue :=
  match v1, v2 with
  | .Exp .CTrue, .Exp .CTrue => .ok (.Exp (boolToExp (op true true)))
  | .Exp .CTrue, .Exp .CFalse => .ok (.Exp (boolToExp (op true false)))
  | .Exp .CFalse, .Exp .CTrue => .ok (.Exp (boolToExp (op false true)))
  | .Exp .CFalse, .Exp .CFalse => .ok (.Exp (boolToExp (op false false)))
  | _, _ => .err errorMsg

/-- The value dispatch of `eval_binary_rel_op` (interpreter.rs lines
366-393): both operands coerced to f64 and compared.  An i32 converts to
f64 exactly and a `CReal` payload is the exact value of its f64, and an
f64 comparison is exact on the compared values, so the rational comparison
is the f64 comparison. -/
def eval_binary_rel_op (op : Rat → Rat → Bool) (v1 v2 : EnvValue) (errorMsg : String) : RResult EnvValue :=
  match v1, v2 with
  | .Exp (.CInt a), .Exp (.CInt b) => .ok (.Exp (boolToExp (op a b)))
  | .Exp (.CInt a), .Exp (.CReal b) => .ok (.Exp (boolToExp (op a b)))
  | .Exp (.CReal a), .Exp (.CInt b) => .ok (.Exp (boolToExp (op a b)))
  | .Exp (.CReal a), .Exp (.CReal b) => .ok (.Exp (boolToExp (op a b)))
  | _, _ => .err errorMsg

/-- The Rust `add` applied to evaluated operands. -/
def addV (v1 v2 : EnvValue) : RResult EnvValue :=
  eval_binary_arith_op .add v1 v2 ("addition (+) is only defined for numbers (integers and real).")

/-- The Rust `sub` applied to evaluated operands. -/
def subV (v1 v2 : EnvValue) : RResult EnvValue :=
  eval_binary_arith_op .sub v1 v2 ("subtraction (-) is only defined for numbers (integers and real).")

/-- The Rust `mul` applied to evaluated operands. -/
def mulV (v1 v2 : EnvValue) : RResult EnvValue :=
  eval_binary_arith_op .mul v1 v2 ("multiplication (*) is only defined for numbers (integers and real).")

/-- The Rust `div` applied to evaluated operands. -/
def divV (v1 v2 : EnvValue) : RResult EnvValue :=
  eval_binary_arith_op .div v1 v2 ("division (/) is only defined for numbers (integers and real).")

/-- The Rust `and` applied to evaluated operands. -/
def andV (v1 v2 : EnvValue) : RResult EnvValue :=
  eval_binary_boolean_op (fun a b => a && b) v1 v2 ("and is only defined for booleans.")

/-- The Rust `or` applied to evaluated operands. -/
def orV (v1 v2 : EnvValue) : RResult EnvValue :=
  eval_binary_boolean_op (fun a b => a || b) v1 v2 ("or is only defined for booleans.")

/-- The Rust `not` (interpreter.rs lines 356-363) applied to its evaluated
operand. -/
def notV (v : EnvValue) : RResult EnvValue :=
  match v with
  | .Exp .CTrue => .ok (.Exp .CFalse)
  | .Exp .CFalse => .ok (.Exp .CTrue)
  | _ => .err ("not is only defined for booleans.")

/-- The Rust `eq` applied to evaluated operands. -/
def eqV (v1 v2 : EnvValue) : RResult EnvValue :=
  eval_binary_rel_op (fun a b => a == b) v1 v2 ("(==) is only defined for numbers (integers and real).")

/-- The Rust `gt` applied to evaluated operands. -/
def gtV (v1 v2 : EnvValue) : RResult EnvValue :=
  eval_binary_rel_op (fun a b => b < a) v1 v2 ("(>) is only defined for numbers (integers and real).")

/-- The Rust `lt` applied to evaluated operands. -/
def ltV (v1 v2 : EnvValue) : RResult EnvValue :=
  eval_binary_rel_op (fun a b => a < b) v1 v2 ("(<) is only defined for numbers (integers and real).")

/-- The Rust `gte` applied to evaluated operands. -/
def gteV (v1 v2 : EnvValue) : RResult EnvValue :=
  eval_binary_rel_op (fun a b => b ≤ a) v1 v2 ("(>=) is only defined for numbers (integers and real).")

/-- The Rust `lte` applied to evaluated operands. -/
def lteV (v1 v2 : EnvValue) : RResult EnvValue :=
  eval_binary_rel_op (fun a b => a ≤ b) v1 v2 ("(<=) is only defined for numbers (integers and real).")

/-- The filesystem visible to `ReadFile`, an external collaborator of the
engine (spec section 6): an association of paths to contents.  A missing
path models the io-error side of `fs::read_to_string`. -/
abbrev FS := List (String × String)

def fsRead : FS → String → Option String
| [], _ => none
| (p, c) :: rest, path => if p = path then some c else fsRead rest path

/-- The executor signal of interpreter.rs. -/
inductive ControlFlow where
| Continue (env : Environment)
| Return (v : EnvValue)

/-- The recursive self-binding step of the Rust `call` (interpreter.rs
lines 161-163): when `search_frame` does not see the function's own name,
bind it in the new frame so the body can call itself. -/
def selfBind (env : Environment) (func : Function) : Environment :=
  match env.search_frame func.name with
  | none => env.insert_variable func.name (.Func func)
  | some _ => env

mutual

/-- The Rust `eval` (interpreter.rs lines 16-44), fuel-indexed.  Every arm
is the source's arm on the evaluated operands; the trailing arm is the
source's `_ if is_constant(exp)` guard followed by the
`Not implemented yet.` catch-all. -/
def evalF : Nat → Expression → Environment → FS → RResult EnvValue
| 0, _, _, _ => .oof
| n + 1, exp, env, fs =>
  match exp with
  | .Add lhs rhs =>
    (evalF n lhs env fs).bind fun v1 => (evalF n rhs env fs).bind fun v2 => addV v1 v2
  | .Sub lhs rhs =>
    (evalF n lhs env fs).bind fun v1 => (evalF n rhs env fs).bind fun v2 => subV v1 v2
  | .Mul lhs rhs =>
    (evalF n lhs env fs).bind fun v1 => (evalF n rhs env fs).bind fun v2 => mulV v1 v2
  | .Div lhs rhs =>
    (evalF n lhs env fs).bind fun v1 => (evalF n rhs env fs).bind fun v2 => divV v1 v2
  | .And lhs rhs =>
    (evalF n lhs env fs).bind fun v1 => (evalF n rhs env fs).bind fun v2 => andV v1 v2
  | .Or lhs rhs =>
    (evalF n lhs env fs).bind fun v1 => (evalF n rhs env fs).bind fun v2 => orV v1 v2
  | .Not lhs =>
    (evalF n lhs env fs).bind fun v => notV v
  | .EQ lhs rhs =>
    (evalF n lhs env fs).bind fun v1 => (evalF n rhs env fs).bind fun v2 => eqV v1 v2
  | .GT lhs rhs =>
    (evalF n lhs env fs).bind fun v1 => (evalF n rhs env fs).bind fun v2 => gtV v1 v2
  | .LT lhs rhs =>
    (evalF n lhs env fs).bind fun v1 => (evalF n rhs env fs).bind fun v2 => ltV v1 v2
  | .GTE lhs rhs =>
    (evalF n lhs env fs).bind fun v1 => (evalF n rhs env fs).bind fun v2 => gteV v1 v2
  | .LTE lhs rhs =>
    (evalF n lhs env fs).bind fun v1 => (evalF n rhs env fs).bind fun v2 => lteV v1 v2
  | .Var name => lookup name env
  | .FuncCall name args => callF n name args env fs
  | .ReadFile pathExp =>
    (evalF n pathExp env fs).bind fun pv =>
      match pv with
      | .Exp (.CString path) =>
        match fsRead fs path with
        | some content => .ok (.Exp (.CString content))
        | none => .err ("No such file or directory (os error 2)")
      | _ => .err ("read_file expects a string as the file path")
  | e => if is_constant e then .ok (.Exp e) else .err ("Not implemented yet.")

/-- The Rust `execute` (interpreter.rs lines 46-142), fuel-indexed.  The
Rust function clones the incoming environment; values are immutable here,
so the clone is the environment itself.  The `IfThenElse` arm is the
source's `value == EnvValue::Exp(Expression::CTrue)` test: any other
condition value, boolean or not, silently selects the else path.  The
`While` arm is the source's loop, one iteration per fuel unit.  `Print`
and a successful `WriteToFile` touch only the process's standard output
resp. the external filesystem, so they yield `Continue` with the
environment unchanged; the write-back of contents to the external `FS`
value is outside the environment model. -/
def executeF : Nat → Statement → Environment → FS → RResult ControlFlow
| 0, _, _, _ => .oof
| n + 1, stmt, env, fs =>
  match stmt with
  | .Assignment name exp _ =>
    (evalF n exp env fs).bind fun value => .ok (.Continue (env.insert_variable name value))
  | .IfThenElse cond thenStmt elseStmt =>
    (evalF n cond env fs).bind fun value =>
      match value with
      | .Exp .CTrue => executeF n thenStmt env fs
      | _ =>
        match elseStmt with
        | some s => executeF n s env fs
        | none => .ok (.Continue env)
  | .While cond body =>
    (evalF n cond env fs).bind fun value =>
      match value with
      | .Exp .CTrue =>
        (executeF n body env fs).bind fun cf =>
          match cf with
          | .Continue controlEnv => executeF n (.While cond body) controlEnv fs
          | .Return v => .ok (.Return v)
      | .Exp .CFalse => .ok (.Continue env)
      | _ => .crash ("while: non-boolean condition value (unreachable)")
  | .Sequence s1 s2 =>
    (executeF n s1 env fs).bind fun cf =>
      match cf with
      | .Continue controlEnv => executeF n s2 controlEnv fs
      | .Return v => .ok (.Return v)
  | .FuncDef func => .ok (.Continue (env.insert_variable func.name (.Func func)))
  | .Return exp =>
    (evalF n exp env fs).bind fun value => .ok (.Return value)
  | .WriteToFile pathExp contentExp =>
    (evalF n pathExp env fs).bind fun pv =>
      (evalF n contentExp env fs).bind fun cv =>
        match pv, cv with
        | .Exp (.CString _), .Exp (.CString _) => .ok (.Continue env)
        | _, _ => .err ("write_to_file expects two string arguments")
  | .Print exp =>
    (evalF n exp env fs).bind fun value =>
      match value with
      | .Exp (.CInt _) => .ok (.Continue env)
      | .Exp (.CReal _) => .ok (.Continue env)
      | .Exp (.CString _) => .ok (.Continue env)
      | .Exp .CTrue => .ok (.Continue env)
      | .Exp .CFalse => .ok (.Continue env)
      | _ => .err ("Cannot print this type of value")

/-- The parameter-binding loop of the Rust `call` (interpreter.rs lines
154-159): `args.iter().zip(params)` evaluates each argument in the
current (freshly pushed) environment and binds it before the next
argument is evaluated; `zip` stops at the shorter of the two lists. -/
def bindParams : Nat → List Expression → List (Name × Ty) → Environment → FS → RResult Environment
| 0, _, _, _, _ => .oof
| n + 1, args, params, env, fs =>
  match args, params with
  | arg :: args', (param, _) :: params' =>
    (evalF n arg env fs).bind fun value =>
      bindParams n args' params' (env.insert_variable param value) fs
  | _, _ => .ok env

/-- The Rust `call` (interpreter.rs lines 144-174), fuel-indexed.  The
`if let Ok(EnvValue::Func(func)) = lookup(...)` falls through to the
trailing `unreachable!()` when the target is not a function value; a panic
inside `lookup` propagates.  `func.body.unwrap()` panics on a body-less
function; a body that yields `Continue` hits the source's
`unreachable!()`.  The source pops its local environment clone before
returning the value; the pop has no effect on the returned value and the
clone is discarded, so no pop appears here. -/
def callF : Nat → Name → List Expression → Environment → FS → RResult EnvValue
| 0, _, _, _, _ => .oof
| n + 1, name, args, env, fs =>
  match lookup name env with
  | .ok (.Func func) =>
    (match func.params with
     | some params => bindParams n args params (env.insert_frame func) fs
     | none => .ok (env.insert_frame func)).bind fun env2 =>
      match func.body with
      | some body =>
        (executeF n body (selfBind env2 func) fs).bind fun cf =>
          match cf with
          | .Return value => .ok value
          | .Continue _ => .crash ("call: body finished without Return (unreachable)")
      | none => .crash ("call: body unwrap on None")
  | .ok (.Exp _) => .crash ("call: target is not a function (unreachable)")
  | .err _ => .crash ("call: lookup returned Err (unreachable)")
  | .crash s => .crash s
  | .oof => .oof

end

/-- A bound `RResult` succeeds exactly when the first step succeeds and the
continuation succeeds on its value. -/
theorem RResult.bind_eq_ok {α β : Type} {x : RResult α} {f : α → RResult β} {b : β} :
    x.bind f = .ok b ↔ ∃ a, x = .ok a ∧ f a = .ok b := by
  cases x <;> simp [RResult.bind]

/-- A stored value respecting the spec's invariant: an expression payload is
one of the five constant constructors (the four constant kinds), a function
payload is unrestricted. -/
def constValB : EnvValue → Bool
| .Exp e => is_constant e
| .Func _ => true

def frameOkB (f : Frame) : Bool := f.vars.all fun p => constValB p.2

/-- Every value stored anywhere in the environment respects the constant
invariant. -/
def envOkB (env : Environment) : Bool := env.frames.all frameOkB

def cfOkB : ControlFlow → Bool
| .Continue env => envOkB env
| .Return v => constValB v

theorem varsLookup_const {l : List (Name × EnvValue)} {n : Name} {v : EnvValue}
    (hl : l.all (fun p => constValB p.2) = true) (h : varsLookup l n = some v) :
    constValB v = true := by
  induction l with
  | nil => simp [varsLookup] at h
  | cons p rest ih =>
    obtain ⟨k, w⟩ := p
    rw [List.all_cons, Bool.and_eq_true] at hl
    by_cases hk : k = n
    · simp only [varsLookup, if_pos hk] at h
      cases h
      exact hl.1
    · simp only [varsLookup, if_neg hk] at h
      exact ih hl.2 h

theorem lookupFrames_const {frames : List Frame} {n : Name} {v : EnvValue}
    (hf : frames.all frameOkB = true) (h : lookupFrames frames n = .ok v) :
    constValB v = true := by
  induction frames with
  | nil => simp [lookupFrames] at h
  | cons f rest ih =>
    rw [List.all_cons, Bool.and_eq_true] at hf
    simp only [lookupFrames] at h
    cases hv : varsLookup f.vars n with
    | some w =>
      rw [hv] at h
      cases h
      exact varsLookup_const hf.1 hv
    | none =>
      rw [hv] at h
      cases rest with
      | nil => simp at h
      | cons f2 rest2 => exact ih hf.2 h

theorem lookup_const {env : Environment} {n : Name} {v : EnvValue}
    (henv : envOkB env = true) (h : lookup n env = .ok v) : constValB v = true :=
  lookupFrames_const henv h

theorem envOkB_insert_variable {env : Environment} {n : Name} {v : EnvValue}
    (henv : envOkB env = true) (hv : constValB v = true) :
    envOkB (env.insert_variable n v) = true := by
  obtain ⟨frames⟩ := env
  cases frames with
  | nil => simp [Environment.insert_variable, envOkB, frameOkB, hv]
  | cons f rest =>
    simp only [envOkB, List.all_cons, Bool.and_eq_true] at henv
    simp only [Environment.insert_variable, envOkB, List.all_cons, Bool.and_eq_true]
    refine ⟨?_, henv.2⟩
    simp only [frameOkB, List.all_cons, Bool.and_eq_true]
    exact ⟨hv, henv.1⟩

theorem envOkB_insert_frame {env : Environment} {f : Function}
    (henv : envOkB env = true) : envOkB (env.insert_frame f) = true := by
  simpa [Environment.insert_frame, envOkB, frameOkB] using henv

theorem envOkB_selfBind {env : Environment} {f : Function}
    (henv : envOkB env = true) : envOkB (selfBind env f) = true := by
  unfold selfBind
  cases env.search_frame f.name with
  | none => exact envOkB_insert_variable henv rfl
  | some _ => exact henv

theorem eval_binary_arith_op_const {op : ArithOp} {v1 v2 : EnvValue} {msg : String}
    {v : EnvValue} (h : eval_binary_arith_op op v1 v2 msg = .ok v) :
    constValB v = true := by
  unfold eval_binary_arith_op at h
  split at h <;> first
  | (cases h; rfl)
  | simp at h

theorem constValB_boolToExp {b : Bool} : constValB (.Exp (boolToExp b)) = true := by
  cases b <;> rfl

theorem eval_binary_boolean_op_const {op : Bool → Bool → Bool} {v1 v2 : EnvValue}
    {msg : String} {v : EnvValue} (h : eval_binary_boolean_op op v1 v2 msg = .ok v) :
    constValB v = true := by
  unfold eval_binary_boolean_op at h
  split at h <;> first
  | (cases h; exact constValB_boolToExp)
  | simp at h

theorem eval_binary_rel_op_const {op : Rat → Rat → Bool} {v1 v2 : EnvValue}
    {msg : String} {v : EnvValue} (h : eval_binary_rel_op op v1 v2 msg = .ok v) :
    constValB v = true := by
  unfold eval_binary_rel_op at h
  split at h <;> first
  | (cases h; exact constValB_boolToExp)
  | simp at h

theorem notV_const {v1 v : EnvValue} (h : notV v1 = .ok v) : constValB v = true := by
  unfold notV at h
  split at h <;> first
  | (cases h; rfl)
  | simp at h

/-- The constant-value invariant of the spec, proved simultaneously for the
four fuel-indexed interpreter functions by induction on the fuel: a
successful evaluation yields an invariant-respecting value, a successful
execution yields an invariant-respecting signal, and parameter binding
preserves the invariant. -/
theorem interpOk : ∀ fuel : Nat,
    (∀ e env fs v, envOkB env = true → evalF fuel e env fs = .ok v → constValB v = true)
    ∧ (∀ s env fs cf, envOkB env = true → executeF fuel s env fs = .ok cf → cfOkB cf = true)
    ∧ (∀ name args env fs v, envOkB env = true → callF fuel name args env fs = .ok v →
        constValB v = true)
    ∧ (∀ args ps env fs env2, envOkB env = true → bindParams fuel args ps env fs = .ok env2 →
        envOkB env2 = true) := by
  intro fuel
  induction fuel with
  | zero =>
    refine ⟨?_, ?_, ?_, ?_⟩ <;> intros <;> simp_all [evalF, executeF, callF, bindParams]
  | succ n ih =>
    obtain ⟨ihE, ihS, ihC, ihB⟩ := ih
    refine ⟨?_, ?_, ?_, ?_⟩
    · intro e env fs v henv h
      cases e with
      | Add lhs rhs =>
        simp only [evalF] at h
        obtain ⟨v1, _, h2⟩ := RResult.bind_eq_ok.mp h
        obtain ⟨v2, _, h4⟩ := RResult.bind_eq_ok.mp h2
        exact eval_binary_arith_op_const h4
      | Sub lhs rhs =>
        simp only [evalF] at h
        obtain ⟨v1, _, h2⟩ := RResult.bind_eq_ok.mp h
        obtain ⟨v2, _, h4⟩ := RResult.bind_eq_ok.mp h2
        exact eval_binary_arith_op_const h4
      | Mul lhs rhs =>
        simp only [evalF] at h
        obtain ⟨v1, _, h2⟩ := RResult.bind_eq_ok.mp h
        obtain ⟨v2, _, h4⟩ := RResult.bind_eq_ok.mp h2
        exact eval_binary_arith_op_const h4
      | Div lhs rhs =>
        simp only [evalF] at h
        obtain ⟨v1, _, h2⟩ := RResult.bind_eq_ok.mp h
        obtain ⟨v2, _, h4⟩ := RResult.bind_eq_ok.mp h2
        exact eval_binary_arith_op_const h4
      | And lhs rhs =>
        simp only [evalF] at h
        obtain ⟨v1, _, h2⟩ := RResult.bind_eq_ok.mp h
        obtain ⟨v2, _, h4⟩ := RResult.bind_eq_ok.mp h2
        exact eval_binary_boolean_op_const h4
      | Or lhs rhs =>
        simp only [evalF] at h
        obtain ⟨v1, _, h2⟩ := RResult.bind_eq_ok.mp h
        obtain ⟨v2, _, h4⟩ := RResult.bind_eq_ok.mp h2
        exact eval_binary_boolean_op_const h4
      | Not lhs =>
        simp only [evalF] at h
        obtain ⟨v1, _, h2⟩ := RResult.bind_eq_ok.mp h
        exact notV_const h2
      | EQ lhs rhs =>
        simp only [evalF] at h
        obtain ⟨v1, _, h2⟩ := RResult.bind_eq_ok.mp h
        obtain ⟨v2, _, h4⟩ := RResult.bind_eq_ok.mp h2
        exact eval_binary_rel_op_const h4
      | GT lhs rhs =>
        simp only [evalF] at h
        obtain ⟨v1, _, h2⟩ := RResult.bind_eq_ok.mp h
        obtain ⟨v2, _, h4⟩ := RResult.bind_eq_ok.mp h2
        exact eval_binary_rel_op_const h4
      | LT lhs rhs =>
        simp only [evalF] at h
        obtain ⟨v1, _, h2⟩ := RResult.bind_eq_ok.mp h
        obtain ⟨v2, _, h4⟩ := RResult.bind_eq_ok.mp h2
        exact eval_binary_rel_op_const h4
      | GTE lhs rhs =>
        simp only [evalF] at h
        obtain ⟨v1, _, h2⟩ := RResult.bind_eq_ok.mp h
        obtain ⟨v2, _, h4⟩ := RResult.bind_eq_ok.mp h2
        exact eval_binary_rel_op_const h4
      | LTE lhs rhs =>
        simp only [evalF] at h
        obtain ⟨v1, _, h2⟩ := RResult.bind_eq_ok.mp h
        obtain ⟨v2, _, h4⟩ := RResult.bind_eq_ok.mp h2
        exact eval_binary_rel_op_const h4
      | Var name =>
        simp only [evalF] at h
        exact lookup_const henv h
      | FuncCall name args =>
        simp only [evalF] at h
        exact ihC name args env fs v henv h
      | ReadFile pe =>
        simp only [evalF] at h
        obtain ⟨pv, _, h2⟩ := RResult.bind_eq_ok.mp h
        split at h2
        · split at h2
          · cases h2; rfl
          · simp at h2
        · simp at h2
      | CTrue => simp only [evalF, is_constant, if_true] at h; cases h; rfl
      | CFalse => simp only [evalF, is_constant, if_true] at h; cases h; rfl
      | CInt i => simp only [evalF, is_constant, if_true] at h; cases h; rfl
      | CReal r => simp only [evalF, is_constant, if_true] at h; cases h; rfl
      | CString s => simp only [evalF, is_constant, if_true] at h; cases h; rfl
      | ReadString => simp [evalF, is_constant] at h
      | ReadInt => simp [evalF, is_constant] at h
      | ReadFloat => simp [evalF, is_constant] at h
    · intro s env fs cf henv h
      cases s with
      | Assignment name exp ty =>
        simp only [executeF] at h
        obtain ⟨value, h1, h2⟩ := RResult.bind_eq_ok.mp h
        cases h2
        exact envOkB_insert_variable henv (ihE exp env fs value henv h1)
      | IfThenElse cond thenStmt elseStmt =>
        simp only [executeF] at h
        obtain ⟨value, _, h2⟩ := RResult.bind_eq_ok.mp h
        split at h2
        · exact ihS thenStmt env fs cf henv h2
        · split at h2
          · exact ihS _ env fs cf henv h2
          · cases h2; exact henv
      | While cond body =>
        simp only [executeF] at h
        obtain ⟨value, _, h2⟩ := RResult.bind_eq_ok.mp h
        split at h2
        · obtain ⟨cf1, h3, h4⟩ := RResult.bind_eq_ok.mp h2
          have hcf1 := ihS body env fs cf1 henv h3
          split at h4
          · exact ihS _ _ fs cf hcf1 h4
          · cases h4; exact hcf1
        · cases h2; exact henv
        · simp at h2
      | Sequence s1 s2 =>
        simp only [executeF] at h
        obtain ⟨cf1, h1, h2⟩ := RResult.bind_eq_ok.mp h
        have hcf1 := ihS s1 env fs cf1 henv h1
        split at h2
        · exact ihS s2 _ fs cf hcf1 h2
        · cases h2; exact hcf1
      | FuncDef func =>
        simp only [executeF] at h
        cases h
        exact envOkB_insert_variable henv rfl
      | Return exp =>
        simp only [executeF] at h
        obtain ⟨value, h1, h2⟩ := RResult.bind_eq_ok.mp h
        cases h2
        exact ihE exp env fs value henv h1
      | WriteToFile pathExp contentExp =>
        simp only [executeF] at h
        obtain ⟨pv, _, h2⟩ := RResult.bind_eq_ok.mp h
        obtain ⟨cv, _, h4⟩ := RResult.bind_eq_ok.mp h2
        split at h4
        · cases h4; exact henv
        · simp at h4
      | Print exp =>
        simp only [executeF] at h
        obtain ⟨value, _, h2⟩ := RResult.bind_eq_ok.mp h
        split at h2 <;> first
        | (cases h2; exact henv)
        | simp at h2
    · intro name args env fs v henv h
      simp only [callF] at h
      split at h
      · rename_i func _
        obtain ⟨env2, h1, h2⟩ := RResult.bind_eq_ok.mp h
        have henv2 : envOkB env2 = true := by
          split at h1
          · exact ihB args _ _ fs env2 (envOkB_insert_frame henv) h1
          · cases h1; exact envOkB_insert_frame henv
        split at h2
        · obtain ⟨cf, h3, h4⟩ := RResult.bind_eq_ok.mp h2
          have hcf := ihS _ _ fs cf (envOkB_selfBind henv2) h3
          split at h4
          · cases h4; exact hcf
          · simp at h4
        · simp at h2
      · simp at h
      · simp at h
      · simp at h
      · simp at h
    · intro args ps env fs env2 henv h
      simp only [bindParams] at h
      split at h
      · obtain ⟨value, h1, h2⟩ := RResult.bind_eq_ok.mp h
        exact ihB _ _ _ fs env2 (envOkB_insert_variable henv (ihE _ env fs value henv h1)) h2
      · cases h; exact henv

/-- C1: in every environment whose stored expression values are all reduced
to one of the four constant kinds, a successful `eval` that returns
`EnvValue::Exp(e)` returns a constant `e` (never a compound or unreduced
expression), and a successful `execute` that continues yields an
environment with the same invariant, for every statement. -/
theorem c1_eval_returns_constants_execute_preserves :
    (∀ fuel e env fs e', envOkB env = true →
      evalF fuel e env fs = .ok (.Exp e') → is_constant e' = true)
    ∧ (∀ fuel s env fs env', envOkB env = true →
      executeF fuel s env fs = .ok (.Continue env') → envOkB env' = true) := by
  constructor
  · intro fuel e env fs e' henv h
    exact (interpOk fuel).1 e env fs (.Exp e') henv h
  · intro fuel s env fs env' henv h
    exact (interpOk fuel).2.1 s env fs (.Continue env') henv h

theorem c1_eval_returns_constants_execute_preserves_witness :
    is_constant (.CInt 30) = true
    ∧ envOkB (Environment.new.insert_variable ("x") (.Exp (.CInt 42))) = true :=
  ⟨c1_eval_returns_constants_execute_preserves.1 2 (.Add (.CInt 10) (.CInt 20))
      Environment.new [] (.CInt 30) (by rfl) (by rfl),
   c1_eval_returns_constants_execute_preserves.2 2 (.Assignment ("x") (.CInt 42) none)
      Environment.new [] (Environment.new.insert_variable ("x") (.Exp (.CInt 42)))
      (by rfl) (by rfl)⟩

/-- C2: the claim states that a variable reference to a name bound in no
frame of the scope chain yields an `UndefinedNameError` result and never
crashes the process.  The code instead walks the chain and, at the root
frame, calls `.unwrap()` on the absent parent key, which panics: evaluating
`Var "x"` in the fresh root-only environment crashes instead of returning
an error.  The theorem evaluates the code at that failing input. -/
theorem c2_lookup_crashes_on_unbound_name :
    evalF 1 (.Var ("x")) Environment.new [] =
      .crash ("lookup: parent_key unwrap on None at the root frame") := rfl

/-- C7: executing `Sequence(s1, s2)` runs `s1`; a `Continue(next_env)`
outcome makes the sequence's result the execution of `s2` against
`next_env`, and a `Return(value)` outcome makes the sequence yield
`Return(value)` with `s2` never executed (the sequence's result does not
depend on `s2`). -/
theorem c7_sequence_threading (n : Nat) (s1 s2 : Statement) (env env' : Environment)
    (fs : FS) (v : EnvValue) :
    (executeF n s1 env fs = .ok (.Continue env') →
      executeF (n + 1) (.Sequence s1 s2) env fs = executeF n s2 env' fs)
    ∧ (executeF n s1 env fs = .ok (.Return v) →
      executeF (n + 1) (.Sequence s1 s2) env fs = .ok (.Return v)) := by
  constructor
  · intro h
    simp only [executeF, h, RResult.bind]
  · intro h
    simp only [executeF, h, RResult.bind]

theorem c7_sequence_threading_witness :
    (executeF 3 (.Sequence (.Assignment ("x") (.CInt 7) none) (.Assignment ("y") (.CInt 8) none))
        Environment.new [] =
      executeF 2 (.Assignment ("y") (.CInt 8) none)
        (Environment.new.insert_variable ("x") (.Exp (.CInt 7))) [])
    ∧ executeF 3 (.Sequence (.Return (.CInt 5)) (.Assignment ("y") (.CInt 8) none))
        Environment.new [] = .ok (.Return (.Exp (.CInt 5))) :=
  ⟨(c7_sequence_threading 2 _ _ Environment.new _ [] (.Exp (.CInt 5))).1 (by rfl),
   (c7_sequence_threading 2 _ _ Environment.new Environment.new [] (.Exp (.CInt 5))).2 (by rfl)⟩

/-- C5: `and`/`or` evaluate both operands with no short-circuiting: even
when the first operand alone determines the logical result (a false first
operand of `and`, a true first operand of `or`), an error from evaluating
the second operand becomes the result of the whole expression. -/
theorem c5_no_short_circuit (n : Nat) (e1 e2 : Expression) (env : Environment) (fs : FS)
    (m : String) :
    (evalF n e1 env fs = .ok (.Exp .CFalse) → evalF n e2 env fs = .err m →
      evalF (n + 1) (.And e1 e2) env fs = .err m)
    ∧ (evalF n e1 env fs = .ok (.Exp .CTrue) → evalF n e2 env fs = .err m →
      evalF (n + 1) (.Or e1 e2) env fs = .err m) := by
  constructor
  · intro h1 h2
    simp only [evalF, h1, h2, RResult.bind]
  · intro h1 h2
    simp only [evalF, h1, h2, RResult.bind]

theorem c5_no_short_circuit_witness :
    evalF 3 (.And .CFalse (.Add .CTrue .CTrue)) Environment.new [] =
      .err ("addition (+) is only defined for numbers (integers and real).")
    ∧ evalF 3 (.Or .CTrue (.Add .CTrue .CTrue)) Environment.new [] =
      .err ("addition (+) is only defined for numbers (integers and real).") :=
  ⟨(c5_no_short_circuit 2 _ _ Environment.new [] _).1 (by rfl) (by rfl),
   (c5_no_short_circuit 2 _ _ Environment.new [] _).2 (by rfl) (by rfl)⟩

/-- C6: the claim states that a conditional whose condition evaluates to a
non-boolean value fails with a `TypeError`.  The code instead compares the
value against `EnvValue::Exp(CTrue)` and treats every other value —
boolean or not — as false, silently choosing the else path: executing
`if 0 then y := 1` (no else) on the fresh environment yields
`Continue(unchanged_env)` with no error.  The theorem evaluates the code
at that failing input (the claim's second half, false condition with no
else-branch yielding `Continue` unchanged, is visible in the same
computation). -/
theorem c6_if_nonboolean_condition_silently_skips :
    executeF 2 (.IfThenElse (.CInt 0) (.Assignment ("y") (.CInt 1) none) none)
      Environment.new [] = .ok (.Continue Environment.new) := rfl

/-- A one-parameter function returning the constant 42; a call target for
the arity experiment. -/
def arityConst : Function :=
  .mk ("g") none (some [(("x"), .TInteger)]) (some (.Return (.CInt 42)))

/-- A one-parameter function returning its parameter; a call target for
the arity experiment. -/
def arityEcho : Function :=
  .mk ("h") none (some [(("x"), .TInteger)]) (some (.Return (.Var ("x"))))

/-- An environment binding both arity experiment functions. -/
def arityEnv : Environment :=
  (Environment.new.insert_variable ("g") (.Func arityConst)).insert_variable
    ("h") (.Func arityEcho)

/-- C4: the claim states that a call whose argument count differs from the
parameter count fails with an `ArityMismatch` error.  The code instead
zips the argument list with the parameter list, silently binding only the
shorter of the two and proceeding: calling the unary `g` with zero
arguments succeeds (returning 42), and calling the unary `h` with two
arguments succeeds, binding the first and ignoring the second (returning
its value 1).  The theorem evaluates the code at both failing inputs. -/
theorem c4_arity_mismatch_not_detected :
    evalF 5 (.FuncCall ("g") []) arityEnv [] = .ok (.Exp (.CInt 42))
    ∧ evalF 5 (.FuncCall ("h") [.CInt 1, .CInt 2]) arityEnv [] = .ok (.Exp (.CInt 1)) :=
  ⟨rfl, rfl⟩

/-- A lookup of a freshly inserted binding finds it in the current frame. -/
theorem lookup_insert_self (env : Environment) (n : Name) (v : EnvValue) :
    lookup n (env.insert_variable n v) = .ok v := by
  obtain ⟨frames⟩ := env
  cases frames <;> simp [Environment.insert_variable, lookup, lookupFrames, varsLookup]

/-- The self-binding step of `call` never shadows a freshly bound
parameter: looking the parameter up after `selfBind` still finds its
value (when the function's own name is absent from the whole chain it is
in particular distinct from the parameter's name). -/
theorem lookup_selfBind_insert (env : Environment) (f : Function) (q : Name) (v : EnvValue) :
    lookup q (selfBind (env.insert_variable q v) f) = .ok v := by
  obtain ⟨frames⟩ := env
  unfold selfBind
  cases hs : (Environment.insert_variable ⟨frames⟩ q v).search_frame f.name with
  | some w => exact lookup_insert_self _ q v
  | none =>
    have hq : ¬(q = f.name) := by
      intro hqe
      cases frames <;>
        simp [Environment.search_frame, Environment.insert_variable, searchFrames,
          varsLookup, hqe] at hs
    have hq2 : ¬(f.name = q) := fun h => hq h.symm
    cases frames <;>
      simp [Environment.insert_variable, lookup, lookupFrames, varsLookup, hq2]

/-- C9: during a function call every argument is evaluated in the freshly
pushed callee frame, after the earlier parameters of the same call are
bound there.  First conjunct, the binding loop: once the first argument's
value `v1` is bound to parameter `p`, a next argument `Var p` evaluates to
`v1` in the updated environment and is bound to the next parameter,
whatever `p` was bound to before.  Second conjunct, a whole call: for a
function with parameters `p, q` and body `return q`, called with arguments
`[e1, Var p]`, the call returns exactly the value of `e1` (the just-bound
value of `p`), independent of any binding of `p` visible at the call
site. -/
theorem c9_argument_sees_earlier_parameter :
    (∀ (n : Nat) (e1 : Expression) (rest : List Expression) (p q : Name) (t1 t2 : Ty)
        (ps : List (Name × Ty)) (env : Environment) (fs : FS) (v1 : EnvValue),
      evalF (n + 1) e1 env fs = .ok v1 →
      bindParams (n + 2) (e1 :: .Var p :: rest) ((p, t1) :: (q, t2) :: ps) env fs =
        bindParams n rest ps ((env.insert_variable p v1).insert_variable q v1) fs)
    ∧ (∀ (m : Nat) (name fname : Name) (kind : Option Ty) (p q : Name) (t1 t2 : Ty)
        (e1 : Expression) (v1 : EnvValue) (env : Environment) (fs : FS),
      lookup name env =
        .ok (.Func (.mk fname kind (some [(p, t1), (q, t2)]) (some (.Return (.Var q))))) →
      evalF (m + 2) e1
        (env.insert_frame (.mk fname kind (some [(p, t1), (q, t2)]) (some (.Return (.Var q)))))
        fs = .ok v1 →
      callF (m + 4) name [e1, .Var p] env fs = .ok v1) := by
  constructor
  · intro n e1 rest p q t1 t2 ps env fs v1 h1
    show (evalF (n + 1) e1 env fs).bind (fun value =>
      bindParams (n + 1) (.Var p :: rest) ((q, t2) :: ps)
        (env.insert_variable p value) fs) = _
    rw [h1]
    show (evalF n (.Var p) (env.insert_variable p v1) fs).bind (fun value =>
      bindParams n rest ps ((env.insert_variable p v1).insert_variable q value) fs) = _
    cases n with
    | zero => rfl
    | succ k =>
      rw [show evalF (k + 1) (.Var p) (env.insert_variable p v1) fs =
            lookup p (env.insert_variable p v1) from rfl,
        lookup_insert_self]
      rfl
  · intro m name fname kind p q t1 t2 e1 v1 env fs hf h1
    have hstep : callF (m + 4) name [e1, .Var p] env fs =
        (bindParams (m + 3) [e1, .Var p] [(p, t1), (q, t2)]
          (env.insert_frame (.mk fname kind (some [(p, t1), (q, t2)])
            (some (.Return (.Var q))))) fs).bind fun env2 =>
          (executeF (m + 3) (.Return (.Var q))
            (selfBind env2 (.mk fname kind (some [(p, t1), (q, t2)])
              (some (.Return (.Var q))))) fs).bind fun cf =>
            match cf with
            | .Return value => .ok value
            | .Continue _ => .crash ("call: body finished without Return (unreachable)") := by
      unfold callF
      rw [hf]
      rfl
    rw [hstep]
    have hbind : bindParams (m + 3) [e1, .Var p] [(p, t1), (q, t2)]
        (env.insert_frame (.mk fname kind (some [(p, t1), (q, t2)])
          (some (.Return (.Var q))))) fs =
        .ok ((((env.insert_frame (.mk fname kind (some [(p, t1), (q, t2)])
          (some (.Return (.Var q))))).insert_variable p v1).insert_variable q v1)) := by
      show (evalF (m + 2) e1
          (env.insert_frame (.mk fname kind (some [(p, t1), (q, t2)])
            (some (.Return (.Var q))))) fs).bind (fun value =>
        bindParams (m + 2) [.Var p] [(q, t2)]
          ((env.insert_frame (.mk fname kind (some [(p, t1), (q, t2)])
            (some (.Return (.Var q))))).insert_variable p value) fs) = _
      rw [h1]
      show (evalF (m + 1) (.Var p)
          ((env.insert_frame (.mk fname kind (some [(p, t1), (q, t2)])
            (some (.Return (.Var q))))).insert_variable p v1) fs).bind (fun value =>
        bindParams (m + 1) [] []
          (((env.insert_frame (.mk fname kind (some [(p, t1), (q, t2)])
            (some (.Return (.Var q))))).insert_variable p v1).insert_variable q value)
          fs) = _
      rw [show evalF (m + 1) (.Var p)
            ((env.insert_frame (.mk fname kind (some [(p, t1), (q, t2)])
              (some (.Return (.Var q))))).insert_variable p v1) fs =
          lookup p ((env.insert_frame (.mk fname kind (some [(p, t1), (q, t2)])
            (some (.Return (.Var q))))).insert_variable p v1) from rfl,
        lookup_insert_self]
      rfl
    rw [hbind]
    have hlq := lookup_selfBind_insert
      ((env.insert_frame (.mk fname kind (some [(p, t1), (q, t2)])
        (some (.Return (.Var q))))).insert_variable p v1)
      (.mk fname kind (some [(p, t1), (q, t2)]) (some (.Return (.Var q)))) q v1
    show (executeF (m + 3) (.Return (.Var q))
        (selfBind ((((env.insert_frame (.mk fname kind (some [(p, t1), (q, t2)])
          (some (.Return (.Var q))))).insert_variable p v1).insert_variable q v1))
          (.mk fname kind (some [(p, t1), (q, t2)]) (some (.Return (.Var q))))) fs).bind
      (fun cf =>
        match cf with
        | .Return value => .ok value
        | .Continue _ =>
          .crash ("call: body finished without Return (unreachable)")) = .ok v1
    rw [show executeF (m + 3) (.Return (.Var q))
          (selfBind ((((env.insert_frame (.mk fname kind (some [(p, t1), (q, t2)])
            (some (.Return (.Var q))))).insert_variable p v1).insert_variable q v1))
            (.mk fname kind (some [(p, t1), (q, t2)]) (some (.Return (.Var q))))) fs =
        (lookup q (selfBind ((((env.insert_frame (.mk fname kind (some [(p, t1), (q, t2)])
            (some (.Return (.Var q))))).insert_variable p v1).insert_variable q v1))
            (.mk fname kind (some [(p, t1), (q, t2)])
              (some (.Return (.Var q)))))).bind (fun value => .ok (.Return value))
        from rfl,
      hlq]
    rfl

theorem c9_argument_sees_earlier_parameter_witness :
    (bindParams 4 [.CInt 11, .Var ("p")] [(("p"), .TInteger), (("q"), .TInteger)]
        (Environment.new.insert_variable ("p") (.Exp (.CInt 99))) [] =
      bindParams 2 [] []
        (((Environment.new.insert_variable ("p") (.Exp (.CInt 99))).insert_variable
          ("p") (.Exp (.CInt 11))).insert_variable ("q") (.Exp (.CInt 11))) [])
    ∧ callF 5 ("f") [.CInt 11, .Var ("p")]
        ((Environment.new.insert_variable ("p") (.Exp (.CInt 99))).insert_variable ("f")
          (.Func (.mk ("f") none (some [(("p"), .TInteger), (("q"), .TInteger)])
            (some (.Return (.Var ("q")))))))
        [] = .ok (.Exp (.CInt 11)) :=
  ⟨c9_argument_sees_earlier_parameter.1 2 (.CInt 11) [] ("p") ("q") .TInteger .TInteger
      [] (Environment.new.insert_variable ("p") (.Exp (.CInt 99))) [] (.Exp (.CInt 11))
      (by rfl),
   c9_argument_sees_earlier_parameter.2 1 ("f") ("f") none ("p") ("q") .TInteger .TInteger
      (.CInt 11) (.Exp (.CInt 11))
      ((Environment.new.insert_variable ("p") (.Exp (.CInt 99))).insert_variable ("f")
        (.Func (.mk ("f") none (some [(("p"), .TInteger), (("q"), .TInteger)])
          (some (.Return (.Var ("q")))))))
      [] (by rfl) (by rfl)⟩

/-- The five relational operators of interpreter.rs, as data so that one
statement can quantify over them. -/
inductive RelOp where
| eq
| gt
| lt
| gte
| lte

/-- The closure passed by each Rust relational function to
`eval_binary_rel_op`. -/
def RelOp.apply : RelOp → Rat → Rat → Bool
| .eq, a, b => a == b
| .gt, a, b => b < a
| .lt, a, b => a < b
| .gte, a, b => b ≤ a
| .lte, a, b => a ≤ b

/-- The error message each Rust relational function passes to
`eval_binary_rel_op`. -/
def RelOp.errMsg : RelOp → String
| .eq => "(==) is only defined for numbers (integers and real)."
| .gt => "(>) is only defined for numbers (integers and real)."
| .lt => "(<) is only defined for numbers (integers and real)."
| .gte => "(>=) is only defined for numbers (integers and real)."
| .lte => "(<=) is only defined for numbers (integers and real)."

/-- The expression constructor of each relational operator. -/
def mkRel : RelOp → Expression → Expression → Expression
| .eq, l, r => .EQ l r
| .gt, l, r => .GT l r
| .lt, l, r => .LT l r
| .gte, l, r => .GTE l r
| .lte, l, r => .LTE l r

/-- A numeric runtime value: an integer or real constant. -/
def isNumericV : EnvValue → Bool
| .Exp (.CInt _) => true
| .Exp (.CReal _) => true
| _ => false

/-- A numeric runtime value is an integer or a real constant. -/
theorem isNumericV_shape {v : EnvValue} (h : isNumericV v = true) :
    (∃ i, v = .Exp (.CInt i)) ∨ (∃ r, v = .Exp (.CReal r)) := by
  cases v with
  | Func f => simp [isNumericV] at h
  | Exp e =>
    cases e <;> (try simp [isNumericV] at h) <;> first
    | exact Or.inl ⟨_, rfl⟩
    | exact Or.inr ⟨_, rfl⟩

/-- The dispatch of `eval_binary_rel_op`: two numeric operands produce a
boolean constant, any other pair falls to the error arm. -/
theorem eval_binary_rel_op_cases (op : Rat → Rat → Bool) (v1 v2 : EnvValue) (msg : String) :
    (isNumericV v1 = true → isNumericV v2 = true →
      ∃ b : Bool, eval_binary_rel_op op v1 v2 msg = .ok (.Exp (boolToExp b)))
    ∧ (¬(isNumericV v1 = true ∧ isNumericV v2 = true) →
      eval_binary_rel_op op v1 v2 msg = .err msg) := by
  constructor
  · intro hn1 hn2
    rcases isNumericV_shape hn1 with ⟨i, rfl⟩ | ⟨r, rfl⟩ <;>
      rcases isNumericV_shape hn2 with ⟨j, rfl⟩ | ⟨s, rfl⟩ <;> exact ⟨_, rfl⟩
  · intro hno
    unfold eval_binary_rel_op
    split
    · exact absurd ⟨rfl, rfl⟩ hno
    · exact absurd ⟨rfl, rfl⟩ hno
    · exact absurd ⟨rfl, rfl⟩ hno
    · exact absurd ⟨rfl, rfl⟩ hno
    · rfl

/-- C8: for every relational expression, two operands evaluating to
numeric constants (integer or real) produce a boolean constant result,
while any pair in which either operand is non-numeric — a string, a
boolean, or a function value, so in particular string-string and
boolean-boolean equality — fails with that operator's numbers-only type
error. -/
theorem c8_relational_numeric_only (n : Nat) (rop : RelOp) (e1 e2 : Expression)
    (env : Environment) (fs : FS) (v1 v2 : EnvValue)
    (h1 : evalF n e1 env fs = .ok v1) (h2 : evalF n e2 env fs = .ok v2) :
    (isNumericV v1 = true → isNumericV v2 = true →
      ∃ b : Bool, evalF (n + 1) (mkRel rop e1 e2) env fs = .ok (.Exp (boolToExp b)))
    ∧ (¬(isNumericV v1 = true ∧ isNumericV v2 = true) →
      evalF (n + 1) (mkRel rop e1 e2) env fs = .err rop.errMsg) := by
  cases rop with
  | eq =>
    constructor
    · intro hn1 hn2
      obtain ⟨b, hb⟩ := (eval_binary_rel_op_cases (fun a b => a == b) v1 v2
        ("(==) is only defined for numbers (integers and real).")).1 hn1 hn2
      refine ⟨b, ?_⟩
      show (evalF n e1 env fs).bind (fun w1 =>
        (evalF n e2 env fs).bind fun w2 => eqV w1 w2) = _
      rw [h1]
      show (evalF n e2 env fs).bind (fun w2 => eqV v1 w2) = _
      rw [h2]
      exact hb
    · intro hno
      have hres := (eval_binary_rel_op_cases (fun a b => a == b) v1 v2
        ("(==) is only defined for numbers (integers and real).")).2 hno
      show (evalF n e1 env fs).bind (fun w1 =>
        (evalF n e2 env fs).bind fun w2 => eqV w1 w2) = _
      rw [h1]
      show (evalF n e2 env fs).bind (fun w2 => eqV v1 w2) = _
      rw [h2]
      exact hres
  | gt =>
    constructor
    · intro hn1 hn2
      obtain ⟨b, hb⟩ := (eval_binary_rel_op_cases (fun a b => b < a) v1 v2
        ("(>) is only defined for numbers (integers and real).")).1 hn1 hn2
      refine ⟨b, ?_⟩
      show (evalF n e1 env fs).bind (fun w1 =>
        (evalF n e2 env fs).bind fun w2 => gtV w1 w2) = _
      rw [h1]
      show (evalF n e2 env fs).bind (fun w2 => gtV v1 w2) = _
      rw [h2]
      exact hb
    · intro hno
      have hres := (eval_binary_rel_op_cases (fun a b => b < a) v1 v2
        ("(>) is only defined for numbers (integers and real).")).2 hno
      show (evalF n e1 env fs).bind (fun w1 =>
        (evalF n e2 env fs).bind fun w2 => gtV w1 w2) = _
      rw [h1]
      show (evalF n e2 env fs).bind (fun w2 => gtV v1 w2) = _
      rw [h2]
      exact hres
  | lt =>
    constructor
    · intro hn1 hn2
      obtain ⟨b, hb⟩ := (eval_binary_rel_op_cases (fun a b => a < b) v1 v2
        ("(<) is only defined for numbers (integers and real).")).1 hn1 hn2
      refine ⟨b, ?_⟩
      show (evalF n e1 env fs).bind (fun w1 =>
        (evalF n e2 env fs).bind fun w2 => ltV w1 w2) = _
      rw [h1]
      show (evalF n e2 env fs).bind (fun w2 => ltV v1 w2) = _
      rw [h2]
      exact hb
    · intro hno
      have hres := (eval_binary_rel_op_cases (fun a b => a < b) v1 v2
        ("(<) is only defined for numbers (integers and real).")).2 hno
      show (evalF n e1 env fs).bind (fun w1 =>
        (evalF n e2 env fs).bind fun w2 => ltV w1 w2) = _
      rw [h1]
      show (evalF n e2 env fs).bind (fun w2 => ltV v1 w2) = _
      rw [h2]
      exact hres
  | gte =>
    constructor
    · intro hn1 hn2
      obtain ⟨b, hb⟩ := (eval_binary_rel_op_cases (fun a b => b ≤ a) v1 v2
        ("(>=) is only defined for numbers (integers and real).")).1 hn1 hn2
      refine ⟨b, ?_⟩
      show (evalF n e1 env fs).bind (fun w1 =>
        (evalF n e2 env fs).bind fun w2 => gteV w1 w2) = _
      rw [h1]
      show (evalF n e2 env fs).bind (fun w2 => gteV v1 w2) = _
      rw [h2]
      exact hb
    · intro hno
      have hres := (eval_binary_rel_op_cases (fun a b => b ≤ a) v1 v2
        ("(>=) is only defined for numbers (integers and real).")).2 hno
      show (evalF n e1 env fs).bind (fun w1 =>
        (evalF n e2 env fs).bind fun w2 => gteV w1 w2) = _
      rw [h1]
      show (evalF n e2 env fs).bind (fun w2 => gteV v1 w2) = _
      rw [h2]
      exact hres
  | lte =>
    constructor
    · intro hn1 hn2
      obtain ⟨b, hb⟩ := (eval_binary_rel_op_cases (fun a b => a ≤ b) v1 v2
        ("(<=) is only defined for numbers (integers and real).")).1 hn1 hn2
      refine ⟨b, ?_⟩
      show (evalF n e1 env fs).bind (fun w1 =>
        (evalF n e2 env fs).bind fun w2 => lteV w1 w2) = _
      rw [h1]
      show (evalF n e2 env fs).bind (fun w2 => lteV v1 w2) = _
      rw [h2]
      exact hb
    · intro hno
      have hres := (eval_binary_rel_op_cases (fun a b => a ≤ b) v1 v2
        ("(<=) is only defined for numbers (integers and real).")).2 hno
      show (evalF n e1 env fs).bind (fun w1 =>
        (evalF n e2 env fs).bind fun w2 => lteV w1 w2) = _
      rw [h1]
      show (evalF n e2 env fs).bind (fun w2 => lteV v1 w2) = _
      rw [h2]
      exact hres

theorem c8_relational_numeric_only_witness :
    (∃ b : Bool, evalF 2 (.LT (.CInt 3) (.CReal 2)) Environment.new [] =
      .ok (.Exp (boolToExp b)))
    ∧ evalF 2 (.EQ (.CString ("a")) (.CString ("a"))) Environment.new [] =
      .err ("(==) is only defined for numbers (integers and real).")
    ∧ evalF 2 (.EQ .CTrue .CTrue) Environment.new [] =
      .err ("(==) is only defined for numbers (integers and real).") :=
  ⟨(c8_relational_numeric_only 1 .lt (.CInt 3) (.CReal 2) Environment.new []
      (.Exp (.CInt 3)) (.Exp (.CReal 2)) (by rfl) (by rfl)).1 (by rfl) (by rfl),
   (c8_relational_numeric_only 1 .eq (.CString ("a")) (.CString ("a")) Environment.new []
      (.Exp (.CString ("a"))) (.Exp (.CString ("a"))) (by rfl) (by rfl)).2
      (fun h => by simp [isNumericV] at h),
   (c8_relational_numeric_only 1 .eq .CTrue .CTrue Environment.new []
      (.Exp .CTrue) (.Exp .CTrue) (by rfl) (by rfl)).2
      (fun h => by simp [isNumericV] at h)⟩

/-- The expression constructor of each arithmetic operator. -/
def mkArith : ArithOp → Expression → Expression → Expression
| .add, l, r => .Add l r
| .sub, l, r => .Sub l r
| .mul, l, r => .Mul l r
| .div, l, r => .Div l r

/-- Arithmetic on two integer constants takes the integer-integer arm. -/
theorem evalF_arith_int_int (n : Nat) (op : ArithOp) (a b : Int)
    (env : Environment) (fs : FS) :
    evalF (n + 2) (mkArith op (.CInt a) (.CInt b)) env fs =
      .ok (.Exp (.CInt (op.onInts a b))) := by
  cases op <;> rfl

/-- Arithmetic with an integer and a real constant takes a real arm. -/
theorem evalF_arith_int_real (n : Nat) (op : ArithOp) (a : Int) (r : Rat)
    (env : Environment) (fs : FS) :
    evalF (n + 2) (mkArith op (.CInt a) (.CReal r)) env fs =
      .ok (.Exp (.CReal (op.onRats a r))) := by
  cases op <;> rfl

/-- Arithmetic with a real and an integer constant takes a real arm. -/
theorem evalF_arith_real_int (n : Nat) (op : ArithOp) (r : Rat) (b : Int)
    (env : Environment) (fs : FS) :
    evalF (n + 2) (mkArith op (.CReal r) (.CInt b)) env fs =
      .ok (.Exp (.CReal (op.onRats r b))) := by
  cases op <;> rfl

/-- Arithmetic on two real constants takes the real-real arm. -/
theorem evalF_arith_real_real (n : Nat) (op : ArithOp) (r s : Rat)
    (env : Environment) (fs : FS) :
    evalF (n + 2) (mkArith op (.CReal r) (.CReal s)) env fs =
      .ok (.Exp (.CReal (op.onRats r s))) := by
  cases op <;> rfl

/-- The saturating cast is the identity on values inside the i32 range. -/
theorem satI32_of_bounds {x : Int} (h1 : -2147483648 ≤ x) (h2 : x ≤ 2147483647) :
    satI32 x = x := by
  simp only [satI32, maxI32, minI32]
  split_ifs <;> omega

/-- A truncated quotient of an i32 numerator by a nonzero i32 denominator
stays inside the i32 range, except at MIN tdiv -1. -/
theorem tdiv_bounds {a b : Int} (ha1 : -2147483648 ≤ a) (ha2 : a ≤ 2147483647)
    (hb : b ≠ 0) (hc : ¬(a = -2147483648 ∧ b = -1)) :
    -2147483648 ≤ a.tdiv b ∧ a.tdiv b ≤ 2147483647 := by
  have habs : (a.tdiv b).natAbs = a.natAbs / b.natAbs := Int.natAbs_tdiv a b
  rcases Nat.lt_or_ge b.natAbs 2 with hb2 | hb2
  · have hb1 : b = 1 ∨ b = -1 := by omega
    rcases hb1 with rfl | rfl
    · rw [Int.tdiv_one]
      exact ⟨ha1, ha2⟩
    · have hneg : a.tdiv (-1) = -a.tdiv 1 := Int.tdiv_neg a 1
      rw [Int.tdiv_one] at hneg
      have ha : a ≠ -2147483648 := fun h => hc ⟨h, rfl⟩
      omega
  · have hpos : 0 < (2 : Nat) := by omega
    have hdiv : a.natAbs / b.natAbs ≤ a.natAbs / 2 := Nat.div_le_div_left hb2 hpos
    omega

/-- C3 (amended): every binary arithmetic operation on two numeric
constants is computed in 64-bit floating point; two integer operands give
the float result cast back to a 32-bit integer by the saturating,
truncating cast, so for all integer pairs (a,b) with b nonzero —
except a = -2^31, b = -1, where the cast saturates to 2^31 - 1 —
divide(a,b) equals truncation toward zero of a/b; if either operand is
real the result is real. -/
theorem c3_arith_float_coercion (n : Nat) (env : Environment) (fs : FS) :
    (∀ (op : ArithOp) (a b : Int),
      evalF (n + 2) (mkArith op (.CInt a) (.CInt b)) env fs =
        .ok (.Exp (.CInt (op.onInts a b))))
    ∧ (∀ (op : ArithOp) (a : Int) (r : Rat),
      evalF (n + 2) (mkArith op (.CInt a) (.CReal r)) env fs =
        .ok (.Exp (.CReal (op.onRats a r))))
    ∧ (∀ (op : ArithOp) (r : Rat) (b : Int),
      evalF (n + 2) (mkArith op (.CReal r) (.CInt b)) env fs =
        .ok (.Exp (.CReal (op.onRats r b))))
    ∧ (∀ (op : ArithOp) (r s : Rat),
      evalF (n + 2) (mkArith op (.CReal r) (.CReal s)) env fs =
        .ok (.Exp (.CReal (op.onRats r s))))
    ∧ (∀ a b : Int, -2147483648 ≤ a → a ≤ 2147483647 → -2147483648 ≤ b →
      b ≤ 2147483647 → b ≠ 0 → ¬(a = -2147483648 ∧ b = -1) →
      evalF (n + 2) (.Div (.CInt a) (.CInt b)) env fs =
        .ok (.Exp (.CInt (a.tdiv b)))) := by
  refine ⟨fun op a b => evalF_arith_int_int n op a b env fs,
    fun op a r => evalF_arith_int_real n op a r env fs,
    fun op r b => evalF_arith_real_int n op r b env fs,
    fun op r s => evalF_arith_real_real n op r s env fs, ?_⟩
  intro a b ha1 ha2 hb1 hb2 hb hc
  have he := evalF_arith_int_int n .div a b env fs
  rw [show mkArith .div (.CInt a) (.CInt b) = .Div (.CInt a) (.CInt b) from rfl] at he
  rw [he]
  have hbounds := tdiv_bounds ha1 ha2 hb hc
  simp only [ArithOp.onInts, if_neg hb]
  rw [satI32_of_bounds hbounds.1 hbounds.2]

theorem c3_arith_float_coercion_witness :
    evalF 2 (.Div (.CInt 10) (.CInt 3)) Environment.new [] =
      .ok (.Exp (.CInt (Int.tdiv 10 3)))
    ∧ evalF 2 (.Add (.CInt 10) (.CReal (41 / 2))) Environment.new [] =
      .ok (.Exp (.CReal (ArithOp.onRats .add 10 (41 / 2)))) :=
  ⟨(c3_arith_float_coercion 0 Environment.new []).2.2.2.2 10 3 (by decide) (by decide)
      (by decide) (by decide) (by decide) (by decide),
   (c3_arith_float_coercion 0 Environment.new []).2.1 .add 10 (41 / 2)⟩

/-- C3 counterexample: the claim as stated asserts divide(a,b) equals
truncation toward zero of a/b for every integer pair with b nonzero; at
a = -2^31, b = -1 the code returns 2147483647 (the cast saturates at
i32::MAX) while truncation toward zero of a/b is 2147483648. -/
theorem c3_div_truncation_counterexample :
    evalF 2 (.Div (.CInt (-2147483648)) (.CInt (-1))) Environment.new [] =
      .ok (.Exp (.CInt 2147483647))
    ∧ Int.tdiv (-2147483648) (-1) = 2147483648 := ⟨rfl, by decide⟩

/-- C10: an arithmetic operation on two integer constants whose
mathematical result lies outside the 32-bit signed range saturates: the
float-to-i32 cast returns i32::MAX above the range and i32::MIN below it
(for divide the only such pair is MIN / -1, giving i32::MAX); it never
wraps around or panics. -/
theorem c10_integer_overflow_saturates (n : Nat) (env : Environment) (fs : FS)
    (a b : Int) (ha1 : -2147483648 ≤ a) (ha2 : a ≤ 2147483647)
    (hb1 : -2147483648 ≤ b) (hb2 : b ≤ 2147483647) :
    (2147483647 < a + b →
      evalF (n + 2) (.Add (.CInt a) (.CInt b)) env fs = .ok (.Exp (.CInt 2147483647)))
    ∧ (a + b < -2147483648 →
      evalF (n + 2) (.Add (.CInt a) (.CInt b)) env fs = .ok (.Exp (.CInt (-2147483648))))
    ∧ (2147483647 < a - b →
      evalF (n + 2) (.Sub (.CInt a) (.CInt b)) env fs = .ok (.Exp (.CInt 2147483647)))
    ∧ (a - b < -2147483648 →
      evalF (n + 2) (.Sub (.CInt a) (.CInt b)) env fs = .ok (.Exp (.CInt (-2147483648))))
    ∧ (2147483647 < a * b →
      evalF (n + 2) (.Mul (.CInt a) (.CInt b)) env fs = .ok (.Exp (.CInt 2147483647)))
    ∧ (a * b < -2147483648 →
      evalF (n + 2) (.Mul (.CInt a) (.CInt b)) env fs = .ok (.Exp (.CInt (-2147483648))))
    ∧ (a = -2147483648 → b = -1 →
      evalF (n + 2) (.Div (.CInt a) (.CInt b)) env fs =
        .ok (.Exp (.CInt 2147483647))) := by
  refine ⟨?_, ?_, ?_, ?_, ?_, ?_, ?_⟩
  · intro h
    have he := evalF_arith_int_int n .add a b env fs
    rw [show mkArith .add (.CInt a) (.CInt b) = .Add (.CInt a) (.CInt b) from rfl] at he
    rw [he]
    simp only [ArithOp.onInts, satI32, maxI32, minI32]
    rw [if_pos h]
  · intro h
    have he := evalF_arith_int_int n .add a b env fs
    rw [show mkArith .add (.CInt a) (.CInt b) = .Add (.CInt a) (.CInt b) from rfl] at he
    rw [he]
    simp only [ArithOp.onInts, satI32, maxI32, minI32]
    rw [if_neg (by omega), if_pos h]
  · intro h
    have he := evalF_arith_int_int n .sub a b env fs
    rw [show mkArith .sub (.CInt a) (.CInt b) = .Sub (.CInt a) (.CInt b) from rfl] at he
    rw [he]
    simp only [ArithOp.onInts, satI32, maxI32, minI32]
    rw [if_pos h]
  · intro h
    have he := evalF_arith_int_int n .sub a b env fs
    rw [show mkArith .sub (.CInt a) (.CInt b) = .Sub (.CInt a) (.CInt b) from rfl] at he
    rw [he]
    simp only [ArithOp.onInts, satI32, maxI32, minI32]
    rw [if_neg (by omega), if_pos h]
  · intro h
    have he := evalF_arith_int_int n .mul a b env fs
    rw [show mkArith .mul (.CInt a) (.CInt b) = .Mul (.CInt a) (.CInt b) from rfl] at he
    rw [he]
    simp only [ArithOp.onInts, satI32, maxI32, minI32]
    rw [if_pos h]
  · intro h
    have he := evalF_arith_int_int n .mul a b env fs
    rw [show mkArith .mul (.CInt a) (.CInt b) = .Mul (.CInt a) (.CInt b) from rfl] at he
    rw [he]
    simp only [ArithOp.onInts, satI32, maxI32, minI32]
    rw [if_neg (by omega), if_pos h]
  · intro ha hb
    subst ha
    subst hb
    have he := evalF_arith_int_int n .div (-2147483648) (-1) env fs
    rw [show mkArith .div (.CInt (-2147483648)) (.CInt (-1)) =
        .Div (.CInt (-2147483648)) (.CInt (-1)) from rfl] at he
    rw [he]
    rfl

theorem c10_integer_overflow_saturates_witness :
    evalF 2 (.Add (.CInt 2147483647) (.CInt 1)) Environment.new [] =
      .ok (.Exp (.CInt 2147483647))
    ∧ evalF 2 (.Mul (.CInt 100000) (.CInt 100000)) Environment.new [] =
      .ok (.Exp (.CInt 2147483647)) :=
  ⟨(c10_integer_overflow_saturates 0 Environment.new [] 2147483647 1 (by decide)
      (by decide) (by decide) (by decide)).1 (by decide),
   (c10_integer_overflow_saturates 0 Environment.new [] 100000 100000 (by decide)
      (by decide) (by decide) (by decide)).2.2.2.2.1 (by decide)⟩

end Rpy
